import Mathlib

/-!  ## Definitions: the embedded data model and operations of the core,
and the concrete programs and states used by the claim theorems.  -/

/-- Exact fraction standing in for a JS number; kept unnormalized so all
operations are plain integer arithmetic. -/
structure Value where
  num : Int
  den : Int
  deriving DecidableEq, Repr

instance (n : Nat) : OfNat Value n := ⟨⟨n, 1⟩⟩

/-- JS `+` on numbers. -/
def Value.add (a b : Value) : Value := ⟨a.num * b.den + b.num * a.den, a.den * b.den⟩

/-- JS `-` on numbers. -/
def Value.sub (a b : Value) : Value := ⟨a.num * b.den - b.num * a.den, a.den * b.den⟩

/-- JS `*` on numbers. -/
def Value.mul (a b : Value) : Value := ⟨a.num * b.num, a.den * b.den⟩

/-- JS `/` on numbers: exact real-number division, no truncation. -/
def Value.div (a b : Value) : Value := ⟨a.num * b.den, a.den * b.num⟩

inductive InstructionType where
  | ADD | SUB | MUL | DIV | LD | SD
  deriving DecidableEq, Repr

/-- Decoded instruction record. `dest`/`src1`/`src2` hold the register
index parsed from the register name; `id` models JS object identity. -/
structure Instruction where
  id : Nat
  type : InstructionType
  dest : Nat
  src1 : Option Nat
  src2 : Option Nat
  immediate : Option Int
  deriving DecidableEq, Repr

/-- The `type` field of a reservation station: `'ADD'`, `'MULT'` or `'LOAD'`. -/
inductive StationType where
  | ADD | MULT | LOAD
  deriving DecidableEq, Repr

/-- One reservation station, mirroring the `ReservationStation` class. -/
structure ReservationStation where
  name : String
  type : StationType
  busy : Bool
  op : Option InstructionType
  vj : Option Value
  vk : Option Value
  qj : Option String
  qk : Option String
  dest : Option Nat
  instruction : Option Instruction
  remainingCycles : Option Nat
  immediate : Option Int
  executing : Bool
  deriving DecidableEq, Repr

/-- `ReservationStation.clear()`: reset every field except `name` and `type`. -/
def clearRS (st : ReservationStation) : ReservationStation :=
  { st with
    busy := false
    op := none
    vj := none
    vk := none
    qj := none
    qk := none
    dest := none
    instruction := none
    remainingCycles := none
    immediate := none
    executing := false }

/-- One register-file entry, mirroring the `RegisterStatus` class. -/
structure RegisterStatus where
  value : Value
  qi : Option String
  deriving DecidableEq, Repr

/-- The engine state, mirroring the fields of the `TomasuloCore` class.
The three station pools are kept as one list in the order
`add ++ mult ++ load`, which is the order `Object.values(...).flat()`
iterates them; each station's `type` field identifies its pool. -/
structure TomasuloCore where
  registers : List RegisterStatus
  reservationStations : List ReservationStation
  instructions : List Instruction
  currentCycle : Nat
  instructionQueue : List Instruction
  memory : List (Int × Value)
  executedInstructions : List Nat
  deriving DecidableEq, Repr

/-- A fresh idle station with the given name and type (constructor state). -/
def mkRS (name : String) (t : StationType) : ReservationStation :=
  { name := name
    type := t
    busy := false
    op := none
    vj := none
    vk := none
    qj := none
    qk := none
    dest := none
    instruction := none
    remainingCycles := none
    immediate := none
    executing := false }

/-- Build one pool: stations named `base1`, `base2`, ... -/
def mkPool (t : StationType) (base : String) (n : Nat) : List ReservationStation :=
  (List.range n).map fun i => mkRS (base ++ toString (i + 1)) t

/-- The `TomasuloCore` constructor with pool sizes
`{addUnits, multUnits, loadUnits}` (defaults `{3, 2, 2}`). -/
def TomasuloCore.mkCore (addUnits multUnits loadUnits : Nat) : TomasuloCore :=
  { registers := List.replicate 32 { value := 0, qi := none }
    reservationStations :=
      mkPool .ADD "ADD" addUnits ++ mkPool .MULT "MULT" multUnits ++
        mkPool .LOAD "LOAD" loadUnits
    instructions := []
    currentCycle := 0
    instructionQueue := []
    memory := []
    executedInstructions := [] }

/-- JS `Map.get`. -/
def memLookup (m : List (Int × Value)) (a : Int) : Option Value :=
  (m.find? fun p => p.1 == a).map (·.2)

/-- JS `Map.set`: overwrite an existing key in place, else append. -/
def memSet (m : List (Int × Value)) (a : Int) (v : Value) : List (Int × Value) :=
  if m.any (fun p => p.1 == a) then
    m.map fun p => if p.1 == a then (a, v) else p
  else m ++ [(a, v)]

/-- `initializeMemory(addresses)`: fold `memory.set` over the entries. -/
def TomasuloCore.initMemory (s : TomasuloCore) (entries : List (Int × Value)) :
    TomasuloCore :=
  { s with memory := entries.foldl (fun m p => memSet m p.1 p.2) s.memory }

/-- `loadInstructions(instructions)`: replace the pending queue wholesale. -/
def TomasuloCore.loadInstructions (s : TomasuloCore) (l : List Instruction) :
    TomasuloCore :=
  { s with instructionQueue := l }

/-- The pool an instruction kind is routed to by the ternary in `issue`:
ADD/SUB to the add pool, MUL/DIV to the mult pool, everything else —
including SD — falls through to the load pool. -/
def poolOf : InstructionType → StationType
  | .ADD | .SUB => .ADD
  | .MUL | .DIV => .MULT
  | .LD | .SD => .LOAD

/-- `getAvailableStation`: first non-busy station of the pool, in
declaration order, together with its index in the combined list. -/
def findFreeStation : List ReservationStation → StationType →
    Option (Nat × ReservationStation)
  | [], _ => none
  | st :: rest, t =>
    if st.type = t ∧ st.busy = false then some (0, st)
    else (findFreeStation rest t).map fun p => (p.1 + 1, p.2)

/-- The `switch (op)` of fixed latencies shared by `execute` and the
wake-up in `writeback`: ADD/SUB 2, MUL 10, DIV 40, LD 2; SD matches no
case, leaving `remainingCycles` unchanged (modelled by `none` here and
`assignLatency` below). -/
def latencyOf : InstructionType → Option Nat
  | .ADD | .SUB => some 2
  | .MUL => some 10
  | .DIV => some 40
  | .LD => some 2
  | .SD => none

/-- Effect of the latency `switch` on `remainingCycles`: matched cases
assign, an unmatched operation falls through keeping the old value. -/
def assignLatency (op : Option InstructionType) (rem : Option Nat) : Option Nat :=
  match op with
  | some o =>
    match latencyOf o with
    | some l => some l
    | none => rem
  | none => rem

/-- The "Initialize reservation station" block of `issue`: mark the
claimed station busy and copy operation, instruction, destination and
immediate; `remainingCycles` is reset to null. -/
def claimStation (st : ReservationStation) (instr : Instruction) :
    ReservationStation :=
  { st with
    busy := true
    op := some instr.type
    instruction := some instr
    dest := some instr.dest
    immediate := instr.immediate
    remainingCycles := none }

/-- The `if (instruction.src1)` block of `issue`: record the first operand
as a pending tag (register renamed) or as the register's current value;
`none` is the JS fault on an out-of-range register index. -/
def setOperand1 (s : TomasuloCore) (st : ReservationStation) (src : Option Nat) :
    Option ReservationStation :=
  match src with
  | none => some st
  | some r =>
    match s.registers[r]? with
    | none => none
    | some reg =>
      some (if reg.qi.isSome then { st with qj := reg.qi }
            else { st with vj := some reg.value })

/-- The `if (instruction.src2)` block of `issue`, targeting the second
operand slot. -/
def setOperand2 (s : TomasuloCore) (st : ReservationStation) (src : Option Nat) :
    Option ReservationStation :=
  match src with
  | none => some st
  | some r =>
    match s.registers[r]? with
    | none => none
    | some reg =>
      some (if reg.qi.isSome then { st with qk := reg.qi }
            else { st with vk := some reg.value })

/-- `issue(instruction)`. Returns `some (state, flag)` where `flag` is the
JS boolean result, or `none` when the reference would throw (register
index out of the 32-entry array, so the subsequent `.qi`/property access
faults). The two rejection paths return the state untouched. -/
def TomasuloCore.issue (s : TomasuloCore) (instr : Instruction) :
    Option (TomasuloCore × Bool) :=
  if instr.id ∈ s.executedInstructions then some (s, false)
  else
    match findFreeStation s.reservationStations (poolOf instr.type) with
    | none => some (s, false)
    | some (idx, st) =>
      match setOperand1 s (claimStation st instr) instr.src1 with
      | none => none
      | some st2 =>
        match setOperand2 s st2 instr.src2 with
        | none => none
        | some st3 =>
          match s.registers[instr.dest]? with
          | none => none
          | some dreg =>
            some ({ s with
              reservationStations := s.reservationStations.set idx st3,
              registers :=
                s.registers.set instr.dest { dreg with qi := some st.name } },
              true)

/-- Per-station body of `execute()`: a busy station with no outstanding
operand tags either starts (latency assigned, `executing` set) or, if
already executing with cycles left, counts down by one. -/
def executeStation (st : ReservationStation) : ReservationStation :=
  if st.busy = true ∧ st.qj = none ∧ st.qk = none then
    if st.executing = false then
      { st with
        remainingCycles := assignLatency st.op st.remainingCycles
        executing := true }
    else
      match st.remainingCycles with
      | some (n + 1) => { st with remainingCycles := some n }
      | _ => st
  else st

/-- `execute()`: apply `executeStation` to every station. -/
def TomasuloCore.execute (s : TomasuloCore) : TomasuloCore :=
  { s with reservationStations := s.reservationStations.map executeStation }

/-- Result computation of a completing station. JS coerces a `null`
operand to `0` in arithmetic, hence `getD 0`; the SD case would be
`undefined` in JS but is unreachable because an SD station never has
`remainingCycles` assigned. -/
def computeResult (s : TomasuloCore) (st : ReservationStation) : Value :=
  match st.op with
  | some .ADD => (st.vj.getD 0).add (st.vk.getD 0)
  | some .SUB => (st.vj.getD 0).sub (st.vk.getD 0)
  | some .MUL => (st.vj.getD 0).mul (st.vk.getD 0)
  | some .DIV => (st.vj.getD 0).div (st.vk.getD 0)
  | some .LD =>
    match st.immediate with
    | some a => (memLookup s.memory a).getD 0
    | none => 0
  | _ => 0

/-- Broadcast of a completing station's result to one other station: a
matching operand tag is replaced by the value, and a station whose last
tag was just resolved and that was not yet executing is promoted to
executing with its full latency in this same phase. -/
def broadcastStation (tag : String) (result : Value) (o : ReservationStation) :
    ReservationStation :=
  if o.busy = true then
    let o1 := if o.qj = some tag then { o with vj := some result, qj := none } else o
    let o2 := if o.qk = some tag then { o1 with vk := some result, qk := none } else o1
    if (o.qj = some tag ∨ o.qk = some tag) ∧ o2.qj = none ∧ o2.qk = none ∧
        o2.executing = false then
      { o2 with
        executing := true
        remainingCycles := assignLatency o2.op o2.remainingCycles }
    else o2
  else o

/-- Body of the `writeback()` loop for the station at index `i` of the
current state: if that station is busy, executing and its countdown is at
zero, compute the result, commit it into the destination register
(unconditionally clearing `qi`), broadcast to every station, add the
instruction's identity to the completed set and clear the station.
`none` marks the JS fault on an out-of-range destination register. -/
def writebackAt (s : TomasuloCore) (i : Nat) : Option TomasuloCore :=
  match s.reservationStations[i]? with
  | none => some s
  | some st =>
    if st.busy = true ∧ st.executing = true ∧ st.remainingCycles = some 0 then
      match st.dest with
      | none => none
      | some d =>
        match s.registers[d]? with
        | none => none
        | some _ =>
          let result := computeResult s st
          some { s with
            registers := s.registers.set d { value := result, qi := none }
            reservationStations :=
              (s.reservationStations.map (broadcastStation st.name result)).set i
                (clearRS st)
            executedInstructions :=
              match st.instruction with
              | some instr =>
                if instr.id ∈ s.executedInstructions then s.executedInstructions
                else instr.id :: s.executedInstructions
              | none => s.executedInstructions }
    else some s

/-- The `forEach` of `writeback()`: process the station indices in order,
each against the state left by the previous ones. -/
def writebackLoop : TomasuloCore → List Nat → Option TomasuloCore
  | s, [] => some s
  | s, i :: rest =>
    match writebackAt s i with
    | none => none
    | some s' => writebackLoop s' rest

/-- `writeback()`: iterate over all station indices. -/
def TomasuloCore.writeback (s : TomasuloCore) : Option TomasuloCore :=
  writebackLoop s (List.range s.reservationStations.length)

/-- The issue half of `step()`: if the queue is non-empty, try to issue
its head, removing it only when `issue` reported success. -/
def issuePhase (s : TomasuloCore) : Option TomasuloCore :=
  match s.instructionQueue with
  | [] => some s
  | instr :: rest =>
    match s.issue instr with
    | none => none
    | some (s1, ok) =>
      some (if ok then { s1 with instructionQueue := rest } else s1)

/-- `step()`: advance the clock, try to issue the queue head (removing it
only on success), then run the execute and writeback phases. -/
def TomasuloCore.step (s : TomasuloCore) : Option TomasuloCore :=
  match issuePhase { s with currentCycle := s.currentCycle + 1 } with
  | none => none
  | some s2 => (s2.execute).writeback

/-- `reset()`: fresh registers, all stations cleared, clock zeroed, queue
and completed set emptied; `memory` and the pools themselves persist. -/
def TomasuloCore.reset (s : TomasuloCore) : TomasuloCore :=
  { s with
    registers := List.replicate 32 { value := 0, qi := none }
    reservationStations := s.reservationStations.map clearRS
    currentCycle := 0
    instructionQueue := []
    executedInstructions := [] }

/-- Iterated `step()`. -/
def TomasuloCore.stepN (s : TomasuloCore) : Nat → Option TomasuloCore
  | 0 => some s
  | n + 1 =>
    match s.step with
    | none => none
    | some s' => s'.stepN n

/-- `LD R1, 0` -/
def c1i1 : Instruction :=
  { id := 0, type := .LD, dest := 1, src1 := none, src2 := none, immediate := some 0 }

/-- `ADD R2, R1, R1` -/
def c1i2 : Instruction :=
  { id := 1, type := .ADD, dest := 2, src1 := some 1, src2 := some 1, immediate := none }

/-- `MUL R3, R2, R2` -/
def c1i3 : Instruction :=
  { id := 2, type := .MUL, dest := 3, src1 := some 2, src2 := some 2, immediate := none }

/-- Default pools, memory `{0:5, 1:10, 2:15}`, the three-instruction program. -/
def c1Init : TomasuloCore :=
  ((TomasuloCore.mkCore 3 2 2).initMemory [(0, 5), (1, 10), (2, 15)]).loadInstructions
    [c1i1, c1i2, c1i3]

/-- `SD R1, 100`. -/
def c2sd : Instruction :=
  { id := 10, type := .SD, dest := 1, src1 := none, src2 := none, immediate := some 100 }

/-- A fresh default core whose queue holds a single Store. -/
def c2Init : TomasuloCore := (TomasuloCore.mkCore 3 2 2).loadInstructions [c2sd]

/-- The state after one `step()` of `c2Init`: Store issued into `LOAD1`. -/
def c2After : TomasuloCore :=
  { registers := c2Init.registers.set 1 { value := 0, qi := some "LOAD1" }
    reservationStations := c2Init.reservationStations.set 5
      { name := "LOAD1"
        type := .LOAD
        busy := true
        op := some .SD
        vj := none
        vk := none
        qj := none
        qk := none
        dest := some 1
        instruction := some c2sd
        remainingCycles := none
        immediate := some 100
        executing := true }
    instructions := []
    currentCycle := 1
    instructionQueue := []
    memory := []
    executedInstructions := [] }

/-- The instruction occupying the sole ADD station in the C4 witness. -/
def c4iBusy : Instruction :=
  { id := 1, type := .ADD, dest := 2, src1 := some 0, src2 := some 0, immediate := none }

/-- The ADD instruction stalled at the head of the queue in the C4 witness. -/
def c4i : Instruction :=
  { id := 0, type := .ADD, dest := 1, src1 := some 0, src2 := some 0, immediate := none }

/-- The busy ADD station blocking the C4 witness issue. -/
def c4st : ReservationStation :=
  { mkRS "ADD1" .ADD with
    busy := true
    op := some .ADD
    vj := some 1
    vk := some 2
    dest := some 2
    instruction := some c4iBusy
    remainingCycles := some 5
    executing := true }

/-- A one-station-per-pool core whose only ADD station is busy and whose
queue holds one ADD instruction: a structural-hazard stall. -/
def c4s : TomasuloCore :=
  { TomasuloCore.mkCore 1 1 1 with
    reservationStations := c4st :: mkPool .MULT "MULT" 1 ++ mkPool .LOAD "LOAD" 1
    instructionQueue := [c4i] }

/-- The C4 witness state after one `step()`: clock advanced, the busy ADD
station counted down, the queue untouched. -/
def c4s' : TomasuloCore :=
  { c4s with
    currentCycle := 1
    reservationStations :=
      { c4st with remainingCycles := some 4 } ::
        mkPool .MULT "MULT" 1 ++ mkPool .LOAD "LOAD" 1 }

/-- An ADD instruction used by the C7 witness. -/
def c7i : Instruction :=
  { id := 5, type := .ADD, dest := 1, src1 := some 0, src2 := some 0, immediate := none }

/-- A core that has already retired identity 5. -/
def c7sA : TomasuloCore :=
  { TomasuloCore.mkCore 1 1 1 with executedInstructions := [5] }

/-- A core with no ADD stations at all. -/
def c7sB : TomasuloCore := TomasuloCore.mkCore 0 1 1

/-- The completing station of the C3 witness (its register's current
producer is a different station, `MULT1`). -/
def c3st : ReservationStation :=
  { mkRS "ADD1" .ADD with
    busy := true
    op := some .ADD
    vj := some 3
    vk := some 4
    dest := some 0
    remainingCycles := some 0
    executing := true }

/-- One-station state whose register 0 is currently owned by `MULT1`. -/
def c3s : TomasuloCore :=
  { TomasuloCore.mkCore 1 1 1 with
    reservationStations := [c3st]
    registers := [{ value := 7, qi := some "MULT1" }] }

/-- The waiting station of the C5 witness: both operands pending on `LOAD1`. -/
def c5st : ReservationStation :=
  { mkRS "ADD1" .ADD with
    busy := true
    op := some .ADD
    qj := some "LOAD1"
    qk := some "LOAD1"
    dest := some 2 }

/-- The not-yet-started multiply station of the C6 witness. -/
def c6st : ReservationStation :=
  { mkRS "MULT1" .MULT with
    busy := true
    op := some .MUL
    vj := some 2
    vk := some 3
    dest := some 0
    executing := false }

/-- One-station state around `c6st`. -/
def c6s : TomasuloCore :=
  { TomasuloCore.mkCore 0 1 0 with
    reservationStations := [c6st]
    registers := [{ value := 0, qi := some "MULT1" }] }

/-- Number of stations of a pool type (the pool's size; `clear` keeps
`name` and `type`, so pools persist across `reset`). -/
def poolCount (s : TomasuloCore) (t : StationType) : Nat :=
  (s.reservationStations.filter fun st => st.type == t).length

/-- All fields of an idle station are cleared. -/
def stationCleared (st : ReservationStation) : Bool :=
  !st.busy && st.op == none && st.vj == none && st.vk == none &&
    st.qj == none && st.qk == none && st.dest == none &&
    st.instruction == none && st.remainingCycles == none &&
    st.immediate == none && !st.executing

/-- Per-station invariant: each operand slot holds at most one of
{value, tag}, and an idle station has all operand fields cleared (the
auxiliary part needed for the induction: stations are only ever claimed
after `clear`, so `issue` writes into empty slots). -/
def stationInv (st : ReservationStation) : Prop :=
  (st.qj.isSome = true → st.vj = none) ∧
    (st.qk.isSome = true → st.vk = none) ∧
    (st.busy = false →
      st.vj = none ∧ st.vk = none ∧ st.qj = none ∧ st.qk = none)

/-- The engine-wide invariant. -/
def coreInv (s : TomasuloCore) : Prop :=
  ∀ st ∈ s.reservationStations, stationInv st

/-- Boolean observation of operand exclusivity over all stations. -/
def stationsExclusive (s : TomasuloCore) : Bool :=
  s.reservationStations.all fun st =>
    !(st.vj.isSome && st.qj.isSome) && !(st.vk.isSome && st.qk.isSome)

/-- States reachable through the public interface: construction, memory
initialization, queue loading, reset, and surviving `step()` calls. -/
inductive Reachable : TomasuloCore → Prop where
  | mk_core (a m l : Nat) : Reachable (TomasuloCore.mkCore a m l)
  | init_mem (s : TomasuloCore) (entries : List (Int × Value)) :
      Reachable s → Reachable (s.initMemory entries)
  | load (s : TomasuloCore) (l : List Instruction) :
      Reachable s → Reachable (s.loadInstructions l)
  | reset (s : TomasuloCore) : Reachable s → Reachable (s.reset)
  | step (s s' : TomasuloCore) : Reachable s → s.step = some s' → Reachable s'

/-- An all-in-range ADD instruction for the C10 witness. -/
def c10good : Instruction :=
  { id := 0, type := .ADD, dest := 1, src1 := some 0, src2 := some 0, immediate := none }

/-- An ADD instruction whose destination register index is 40. -/
def c10bad : Instruction :=
  { id := 1, type := .ADD, dest := 40, src1 := some 0, src2 := some 0, immediate := none }

/-- A fresh one-station-per-pool core. -/
def c10s : TomasuloCore := TomasuloCore.mkCore 1 1 1

/-!  ## Theorems: shared lemmas about the operations, then one theorem
per claim, each with its witness (and the C2 counterexample).  -/

/-- C1: with default pool sizes and memory `{0:5, 1:10, 2:15}`, the program
`LD R1,0; ADD R2,R1,R1; MUL R3,R2,R2` stepped until quiescence (15 cycles;
afterwards the queue is empty and no station busy) leaves `R1 = 5`,
`R2 = 10`, `R3 = 100`; the load issues in cycle 1 (`R1`'s tag is `LOAD1`
after step 1) and writes back in cycle 3 (`R1` still `0` after step 2,
`5` with the tag cleared after step 3) — 2 cycles after its issue cycle;
and the dependent `ADD` in station `ADD1` is still not executing after
step 2, being promoted only by the load's broadcast in cycle 3, after
which it carries its full latency of 2. -/
theorem claim_C1 :
    ((c1Init.stepN 15).map fun s =>
      (s.registers[1]?.map (·.value), s.registers[2]?.map (·.value),
       s.registers[3]?.map (·.value)))
      = some (some 5, some 10, some 100) ∧
    ((c1Init.stepN 15).map fun s =>
      (s.instructionQueue, s.reservationStations.map (·.busy)))
      = some ([], [false, false, false, false, false, false, false]) ∧
    ((c1Init.stepN 1).map fun s =>
      (s.registers[1]?.map (·.qi), s.reservationStations[5]?.map (·.busy)))
      = some (some (some "LOAD1"), some true) ∧
    ((c1Init.stepN 2).map fun s =>
      (s.registers[1]?.map (·.value), s.registers[1]?.map (·.qi)))
      = some (some 0, some (some "LOAD1")) ∧
    ((c1Init.stepN 3).map fun s =>
      (s.registers[1]?.map (·.value), s.registers[1]?.map (·.qi)))
      = some (some 5, some none) ∧
    ((c1Init.stepN 2).map fun s => s.reservationStations[0]?.map (·.executing))
      = some (some false) ∧
    ((c1Init.stepN 3).map fun s =>
      (s.reservationStations[0]?.map (·.executing),
       s.reservationStations[0]?.map (·.remainingCycles)))
      = some (some true, some (some 2)) := by
  refine ⟨?_, ?_, ?_, ?_, ?_, ?_, ?_⟩ <;> decide

/-- `issue` never touches the queue, memory, clock, program list or
completed set (only stations and registers change, and only on success). -/
theorem issue_frame (s s' : TomasuloCore) (instr : Instruction) (b : Bool)
    (h : s.issue instr = some (s', b)) :
    s'.instructionQueue = s.instructionQueue ∧ s'.memory = s.memory ∧
      s'.currentCycle = s.currentCycle ∧ s'.instructions = s.instructions ∧
      s'.executedInstructions = s.executedInstructions := by
  unfold TomasuloCore.issue at h
  split at h
  · simp only [Option.some.injEq, Prod.mk.injEq] at h
    obtain ⟨h1, -⟩ := h
    subst h1
    exact ⟨rfl, rfl, rfl, rfl, rfl⟩
  · split at h
    · simp only [Option.some.injEq, Prod.mk.injEq] at h
      obtain ⟨h1, -⟩ := h
      subst h1
      exact ⟨rfl, rfl, rfl, rfl, rfl⟩
    · split at h
      · exact absurd h (by simp)
      · split at h
        · exact absurd h (by simp)
        · split at h
          · exact absurd h (by simp)
          · simp only [Option.some.injEq, Prod.mk.injEq] at h
            obtain ⟨h1, -⟩ := h
            subst h1
            exact ⟨rfl, rfl, rfl, rfl, rfl⟩

/-- Rejection when the instruction identity is already retired. -/
theorem issue_rejected_executed (s : TomasuloCore) (instr : Instruction)
    (h : instr.id ∈ s.executedInstructions) : s.issue instr = some (s, false) := by
  unfold TomasuloCore.issue
  rw [if_pos h]

/-- Rejection when the required pool has no free station (the
already-retired early return also yields `(s, false)`, so no freshness
hypothesis is needed). -/
theorem issue_rejected_full (s : TomasuloCore) (instr : Instruction)
    (hfree : findFreeStation s.reservationStations (poolOf instr.type) = none) :
    s.issue instr = some (s, false) := by
  unfold TomasuloCore.issue
  split
  · rfl
  · rw [hfree]

/-- A successful-or-faulting dichotomy: with a free station and a fresh
identity, `issue` never returns `false`. -/
theorem issue_no_false (s s' : TomasuloCore) (instr : Instruction) (b : Bool)
    (hnx : instr.id ∉ s.executedInstructions)
    (hfree : (findFreeStation s.reservationStations (poolOf instr.type)).isSome)
    (h : s.issue instr = some (s', b)) : b = true := by
  unfold TomasuloCore.issue at h
  rw [if_neg hnx] at h
  obtain ⟨⟨idx, st⟩, hf⟩ := Option.isSome_iff_exists.mp hfree
  rw [hf] at h
  split at h
  · rename_i heq
    exact absurd heq (by simp)
  · split at h
    · exact absurd h (by simp)
    · split at h
      · exact absurd h (by simp)
      · split at h
        · exact absurd h (by simp)
        · simp only [Option.some.injEq, Prod.mk.injEq] at h
          exact h.2.symm

/-- `execute` only rewrites the station list. -/
theorem execute_frame (s : TomasuloCore) :
    (s.execute).instructionQueue = s.instructionQueue ∧
      (s.execute).memory = s.memory ∧ (s.execute).registers = s.registers ∧
      (s.execute).currentCycle = s.currentCycle ∧
      (s.execute).executedInstructions = s.executedInstructions :=
  ⟨rfl, rfl, rfl, rfl, rfl⟩

/-- One `writeback` loop body never touches queue, memory, clock or program. -/
theorem writebackAt_frame (s s' : TomasuloCore) (i : Nat)
    (h : writebackAt s i = some s') :
    s'.instructionQueue = s.instructionQueue ∧ s'.memory = s.memory ∧
      s'.currentCycle = s.currentCycle ∧ s'.instructions = s.instructions := by
  unfold writebackAt at h
  split at h
  · simp only [Option.some.injEq] at h
    subst h
    exact ⟨rfl, rfl, rfl, rfl⟩
  · split at h
    · split at h
      · exact absurd h (by simp)
      · split at h
        · exact absurd h (by simp)
        · simp only [Option.some.injEq] at h
          subst h
          exact ⟨rfl, rfl, rfl, rfl⟩
    · simp only [Option.some.injEq] at h
      subst h
      exact ⟨rfl, rfl, rfl, rfl⟩

/-- The whole `writeback` loop never touches queue, memory, clock or program. -/
theorem writebackLoop_frame :
    ∀ (l : List Nat) (s s' : TomasuloCore), writebackLoop s l = some s' →
      s'.instructionQueue = s.instructionQueue ∧ s'.memory = s.memory ∧
        s'.currentCycle = s.currentCycle ∧ s'.instructions = s.instructions
  | [], s, s', h => by
    simp only [writebackLoop, Option.some.injEq] at h
    subst h
    exact ⟨rfl, rfl, rfl, rfl⟩
  | i :: rest, s, s', h => by
    unfold writebackLoop at h
    split at h
    · exact absurd h (by simp)
    · rename_i s1 h1
      obtain ⟨a1, a2, a3, a4⟩ := writebackAt_frame s s1 i h1
      obtain ⟨b1, b2, b3, b4⟩ := writebackLoop_frame rest s1 s' h
      exact ⟨b1.trans a1, b2.trans a2, b3.trans a3, b4.trans a4⟩

/-- A broadcast leaves a station with no outstanding operand tags unchanged. -/
theorem broadcastStation_noop (tag : String) (v : Value) (o : ReservationStation)
    (hj : o.qj = none) (hk : o.qk = none) : broadcastStation tag v o = o := by
  cases hb : o.busy
  · simp [broadcastStation, hb]
  · simp [broadcastStation, hb, hj, hk]

/-- A busy station holding no outstanding tags and not at the writeback
guard (`remainingCycles ≠ 0`) is left untouched by the whole writeback
loop: it is never cleared and no broadcast changes it. -/
theorem writebackLoop_preserves :
    ∀ (l : List Nat) (s s' : TomasuloCore) (j : Nat) (st : ReservationStation),
      s.reservationStations[j]? = some st → st.qj = none → st.qk = none →
      ¬(st.busy = true ∧ st.executing = true ∧ st.remainingCycles = some 0) →
      writebackLoop s l = some s' → s'.reservationStations[j]? = some st
  | [], s, s', j, st, hst, _, _, _, h => by
    simp only [writebackLoop, Option.some.injEq] at h
    subst h
    exact hst
  | i :: rest, s, s', j, st, hst, hj, hk, hng, h => by
    unfold writebackLoop at h
    split at h
    · exact absurd h (by simp)
    · rename_i s1 h1
      have hst1 : s1.reservationStations[j]? = some st := by
        unfold writebackAt at h1
        split at h1
        · simp only [Option.some.injEq] at h1
          subst h1
          exact hst
        · rename_i sti hsti
          split at h1
          · rename_i hg
            split at h1
            · exact absurd h1 (by simp)
            · rename_i d hd
              split at h1
              · exact absurd h1 (by simp)
              · rename_i dreg hdreg
                simp only [Option.some.injEq] at h1
                subst h1
                have hij : i ≠ j := by
                  intro he
                  subst he
                  rw [hst] at hsti
                  cases hsti
                  exact hng hg
                show ((s.reservationStations.map
                    (broadcastStation sti.name (computeResult s sti))).set i
                      (clearRS sti))[j]? = some st
                rw [List.getElem?_set_ne hij, List.getElem?_map, hst]
                simp only [Option.map_some']
                rw [broadcastStation_noop sti.name (computeResult s sti) st hj hk]
          · simp only [Option.some.injEq] at h1
            subst h1
            exact hst
      exact writebackLoop_preserves rest s1 s' j st hst1 hj hk hng h

/-- `findFreeStation` returns the station stored at the returned index,
and that station is idle and of the requested pool type. -/
theorem findFreeStation_spec :
    ∀ (l : List ReservationStation) (t : StationType) (idx : Nat)
      (st : ReservationStation), findFreeStation l t = some (idx, st) →
      l[idx]? = some st ∧ st.busy = false ∧ st.type = t
  | [], t, idx, st, h => by simp [findFreeStation] at h
  | a :: rest, t, idx, st, h => by
    unfold findFreeStation at h
    split at h
    · rename_i hcond
      simp only [Option.some.injEq, Prod.mk.injEq] at h
      obtain ⟨h1, h2⟩ := h
      subst h1
      subst h2
      exact ⟨by rw [List.getElem?_cons_zero], hcond.2, hcond.1⟩
    · cases hr : findFreeStation rest t with
      | none =>
        rw [hr] at h
        simp at h
      | some p =>
        rw [hr] at h
        simp only [Option.map_some', Option.some.injEq, Prod.mk.injEq] at h
        obtain ⟨h1, h2⟩ := h
        obtain ⟨hp1, hp2, hp3⟩ := findFreeStation_spec rest t p.1 p.2 (by rw [hr])
        subst h1
        subst h2
        exact ⟨by rw [List.getElem?_cons_succ]; exact hp1, hp2, hp3⟩

/-- Shape of a successful `issue`: the claimed station is overwritten with
the fully initialized entry and the destination register is renamed to
the claimed station's tag. -/
theorem issue_eq_of (s : TomasuloCore) (instr : Instruction) (idx : Nat)
    (st st2 st3 : ReservationStation) (dreg : RegisterStatus)
    (hnx : instr.id ∉ s.executedInstructions)
    (hfind : findFreeStation s.reservationStations (poolOf instr.type) = some (idx, st))
    (h1 : setOperand1 s (claimStation st instr) instr.src1 = some st2)
    (h2 : setOperand2 s st2 instr.src2 = some st3)
    (hd : s.registers[instr.dest]? = some dreg) :
    s.issue instr = some ({ s with
      reservationStations := s.reservationStations.set idx st3,
      registers := s.registers.set instr.dest { dreg with qi := some st.name } },
      true) := by
  unfold TomasuloCore.issue
  simp only [if_neg hnx, hfind, h1, h2, hd]

/-- `issuePhase` after a successful issue of the queue head: the head is
removed. -/
theorem issuePhase_success (s s1 : TomasuloCore) (i : Instruction)
    (rest : List Instruction) (hq : s.instructionQueue = i :: rest)
    (hi : s.issue i = some (s1, true)) :
    issuePhase s = some { s1 with instructionQueue := rest } := by
  unfold issuePhase
  rw [hq]
  dsimp only
  rw [hi]
  rfl

/-- `issuePhase` after a rejected issue of the queue head: the state is
exactly what `issue` returned (in particular the queue is untouched). -/
theorem issuePhase_failure (s s1 : TomasuloCore) (i : Instruction)
    (rest : List Instruction) (hq : s.instructionQueue = i :: rest)
    (hi : s.issue i = some (s1, false)) : issuePhase s = some s1 := by
  unfold issuePhase
  rw [hq]
  dsimp only
  rw [hi]
  rfl

/-- `step` in terms of the result of its issue phase. -/
theorem step_of_issuePhase (s s2 : TomasuloCore)
    (h : issuePhase { s with currentCycle := s.currentCycle + 1 } = some s2) :
    s.step = (s2.execute).writeback := by
  unfold TomasuloCore.step
  rw [h]

/-- Frame lemma for the whole `writeback` phase. -/
theorem writeback_frame (s s' : TomasuloCore) (h : s.writeback = some s') :
    s'.instructionQueue = s.instructionQueue ∧ s'.memory = s.memory ∧
      s'.currentCycle = s.currentCycle ∧ s'.instructions = s.instructions :=
  writebackLoop_frame (List.range s.reservationStations.length) s s' h

/-- Station preservation for the whole `writeback` phase. -/
theorem writeback_preserves (s s' : TomasuloCore) (j : Nat)
    (st : ReservationStation) (hst : s.reservationStations[j]? = some st)
    (hj : st.qj = none) (hk : st.qk = none)
    (hng : ¬(st.busy = true ∧ st.executing = true ∧ st.remainingCycles = some 0))
    (h : s.writeback = some s') : s'.reservationStations[j]? = some st :=
  writebackLoop_preserves (List.range s.reservationStations.length) s s' j st
    hst hj hk hng h

/-- A successful indexed lookup implies the index is in range. -/
theorem getElem?_some_lt {α : Type} {l : List α} {n : Nat} {a : α}
    (h : l[n]? = some a) : n < l.length := by
  by_contra hc
  rw [List.getElem?_eq_none (by omega)] at h
  cases h

/-- C2 counterexample: with an SD at the head of the queue of a fresh
default core, one `step()` removes the Store from the queue, marks load
station `LOAD1` (index 5) busy with operation SD, and tags register `R1`
with `LOAD1` — refuting the claim that no pool accepts a Store, that the
Store is never removed from the queue, and that no station or register
entry is mutated on its behalf.  (The ternary in `issue` routes SD to the
load pool through its fall-through branch.) -/
theorem claim_C2_cex :
    (c2Init.step).map (·.instructionQueue) = some [] ∧
    (c2Init.step).map (fun t =>
      t.reservationStations[5]?.map fun st => (st.busy, st.op, st.remainingCycles))
      = some (some (true, some .SD, none)) ∧
    (c2Init.step).map (fun t => t.registers[1]?.map (·.qi))
      = some (some (some "LOAD1")) := by
  refine ⟨?_, ?_, ?_⟩ <;> decide

/-- C2 as amended: a Store at the head of the queue is routed to the load
pool; when a free (clean) load station exists and the destination
register is in range, `step()` does remove the Store from the queue and
claims the station, which ends the cycle busy with operation SD and with
no latency ever assigned (`remainingCycles` stays null), so it never
completes. -/
theorem claim_C2_amended (s s' : TomasuloCore) (i : Instruction)
    (rest : List Instruction) (idx : Nat) (st : ReservationStation)
    (hq : s.instructionQueue = i :: rest)
    (ht : i.type = .SD) (h1 : i.src1 = none) (h2 : i.src2 = none)
    (hnx : i.id ∉ s.executedInstructions)
    (hfind : findFreeStation s.reservationStations (poolOf i.type) = some (idx, st))
    (hqj : st.qj = none) (hqk : st.qk = none) (hex : st.executing = false)
    (hdreg : (s.registers[i.dest]?).isSome = true)
    (hstep : s.step = some s') :
    s'.instructionQueue = rest ∧
      s'.reservationStations[idx]?.map (fun u => (u.busy, u.op, u.remainingCycles))
        = some (true, some .SD, none) := by
  obtain ⟨dreg, hd⟩ := Option.isSome_iff_exists.mp hdreg
  have e1 : setOperand1 { s with currentCycle := s.currentCycle + 1 }
      (claimStation st i) i.src1 = some (claimStation st i) := by
    rw [h1]
    rfl
  have e2 : setOperand2 { s with currentCycle := s.currentCycle + 1 }
      (claimStation st i) i.src2 = some (claimStation st i) := by
    rw [h2]
    rfl
  have hiss := issue_eq_of { s with currentCycle := s.currentCycle + 1 } i idx st
    (claimStation st i) (claimStation st i) dreg hnx hfind e1 e2 hd
  have hip := issuePhase_success { s with currentCycle := s.currentCycle + 1 } _ i
    rest hq hiss
  have hs := step_of_issuePhase s _ hip
  rw [hstep] at hs
  -- the state entering execute/writeback
  have hlt : idx < s.reservationStations.length :=
    getElem?_some_lt (findFreeStation_spec s.reservationStations (poolOf i.type)
      idx st hfind).1
  have hexec : executeStation (claimStation st i) =
      { claimStation st i with remainingCycles := none, executing := true } := by
    have hc : (claimStation st i).busy = true ∧ (claimStation st i).qj = none ∧
        (claimStation st i).qk = none := ⟨rfl, hqj, hqk⟩
    have hal : assignLatency (claimStation st i).op
        (claimStation st i).remainingCycles = none := by
      show assignLatency (some i.type) none = none
      rw [ht]
      rfl
    unfold executeStation
    rw [if_pos hc, if_pos (show (claimStation st i).executing = false from hex), hal]
  have hstx : ∀ (s2 : TomasuloCore), s2.reservationStations =
      (s.reservationStations.set idx (claimStation st i)).map executeStation →
      s2.reservationStations[idx]? =
        some { claimStation st i with remainingCycles := none, executing := true } := by
    intro s2 h
    rw [h, List.getElem?_map, List.getElem?_set_eq_of_lt (claimStation st i) hlt]
    rw [Option.map_some', hexec]
  have hpres := writeback_preserves _ s' idx
    { claimStation st i with remainingCycles := none, executing := true }
    (hstx _ rfl) hqj hqk (by simp) hs.symm
  have hfr := writeback_frame _ s' hs.symm
  refine ⟨?_, ?_⟩
  · rw [hfr.1]
    rfl
  · rw [hpres]
    simp only [Option.map_some']
    show some ((true : Bool), some i.type, (none : Option Nat))
      = some ((true : Bool), some InstructionType.SD, (none : Option Nat))
    rw [ht]

/-- Witness for the amended C2 at the concrete Store program. -/
theorem claim_C2_amended_witness :
    c2After.instructionQueue = [] ∧
      c2After.reservationStations[5]?.map (fun u => (u.busy, u.op, u.remainingCycles))
        = some (true, some .SD, none) :=
  claim_C2_amended c2Init c2After c2sd [] 5 (mkRS "LOAD1" .LOAD) (by decide)
    (by decide) (by decide) (by decide) (by decide) (by decide) (by decide)
    (by decide) (by decide) (by decide) (by decide)

/-- Inversion for `issuePhase` on a non-empty queue: some issue result
exists and the resulting state is the issue result with the head removed
exactly when the issue succeeded. -/
theorem issuePhase_inv (s s2 : TomasuloCore) (i : Instruction)
    (rest : List Instruction) (hq : s.instructionQueue = i :: rest)
    (h : issuePhase s = some s2) :
    ∃ s1 ok, s.issue i = some (s1, ok) ∧
      s2 = if ok then { s1 with instructionQueue := rest } else s1 := by
  unfold issuePhase at h
  rw [hq] at h
  dsimp only at h
  cases hiss : s.issue i with
  | none =>
    rw [hiss] at h
    cases h
  | some p =>
    rw [hiss] at h
    obtain ⟨s1, ok⟩ := p
    simp only [Option.some.injEq] at h
    exact ⟨s1, ok, rfl, h.symm⟩

/-- C4: `step()` considers only the head of the queue: when no free
station of the required pool exists the head stays and the queue is
unchanged; when the head is fresh and a station is free, exactly the head
is removed; and in every surviving step the queue is either the tail or
the untouched original — never anything else (no other queued instruction
can issue). -/
theorem claim_C4 (s s' : TomasuloCore) (i : Instruction) (rest : List Instruction)
    (hq : s.instructionQueue = i :: rest) (hstep : s.step = some s') :
    (findFreeStation s.reservationStations (poolOf i.type) = none →
      s'.instructionQueue = i :: rest) ∧
    (i.id ∉ s.executedInstructions →
      (findFreeStation s.reservationStations (poolOf i.type)).isSome = true →
      s'.instructionQueue = rest) ∧
    (s'.instructionQueue = rest ∨ s'.instructionQueue = i :: rest) := by
  unfold TomasuloCore.step at hstep
  cases hip : issuePhase { s with currentCycle := s.currentCycle + 1 } with
  | none =>
    rw [hip] at hstep
    exact absurd hstep (by simp)
  | some s2 =>
    rw [hip] at hstep
    have hweq : s'.instructionQueue = s2.instructionQueue :=
      (writebackLoop_frame _ _ _ hstep).1
    obtain ⟨s1, ok, hiss, hs2⟩ := issuePhase_inv
      { s with currentCycle := s.currentCycle + 1 } s2 i rest hq hip
    have hq1 : s1.instructionQueue = i :: rest :=
      (issue_frame _ _ _ _ hiss).1.trans hq
    refine ⟨?_, ?_, ?_⟩
    · intro hnone
      have hrej := issue_rejected_full
        { s with currentCycle := s.currentCycle + 1 } i hnone
      rw [hrej] at hiss
      simp only [Option.some.injEq, Prod.mk.injEq] at hiss
      obtain ⟨he1, he2⟩ := hiss
      rw [hweq, hs2, ← he2]
      simp only [Bool.false_eq_true, if_false]
      rw [← he1]
      exact hq
    · intro hnx hfree
      have hok : ok = true := issue_no_false
        { s with currentCycle := s.currentCycle + 1 } s1 i ok hnx hfree hiss
      subst hok
      rw [hweq, hs2]
      simp
    · cases ok with
      | false =>
        right
        rw [hweq, hs2]
        simpa using hq1
      | true =>
        left
        rw [hweq, hs2]
        simp

/-- Witness for C4 at the concrete stall state. -/
theorem claim_C4_witness :
    (findFreeStation c4s.reservationStations (poolOf c4i.type) = none →
      c4s'.instructionQueue = c4i :: []) ∧
    (c4i.id ∉ c4s.executedInstructions →
      (findFreeStation c4s.reservationStations (poolOf c4i.type)).isSome = true →
      c4s'.instructionQueue = []) ∧
    (c4s'.instructionQueue = [] ∨ c4s'.instructionQueue = c4i :: []) :=
  claim_C4 c4s c4s' c4i [] (by decide) (by decide)

/-- C7: both rejection paths of `issue` — an already-retired instruction
identity, and no free station in the required pool — return `false` with
the state exactly as it was (the very same record: registers, stations,
memory and completed set untouched). -/
theorem claim_C7 (s : TomasuloCore) (instr : Instruction) :
    (instr.id ∈ s.executedInstructions → s.issue instr = some (s, false)) ∧
    (findFreeStation s.reservationStations (poolOf instr.type) = none →
      s.issue instr = some (s, false)) :=
  ⟨fun h => issue_rejected_executed s instr h, fun h => issue_rejected_full s instr h⟩

/-- Witness for C7 on both rejection paths. -/
theorem claim_C7_witness :
    c7sA.issue c7i = some (c7sA, false) ∧ c7sB.issue c7i = some (c7sB, false) :=
  ⟨(claim_C7 c7sA c7i).1 (by decide), (claim_C7 c7sB c7i).2 (by decide)⟩

/-- C3: when the station at index `i` completes (busy, executing,
countdown at zero), `writebackAt` writes the computed result into its
destination register and clears that register's producing tag — with no
hypothesis whatsoever on the register's current `qi`, so in particular
also when `qi` names a different, later-issued station than the one
completing. -/
theorem claim_C3 (s : TomasuloCore) (i : Nat) (st : ReservationStation)
    (d : Nat) (q : RegisterStatus)
    (hst : s.reservationStations[i]? = some st)
    (hb : st.busy = true) (he : st.executing = true)
    (hr : st.remainingCycles = some 0)
    (hdest : st.dest = some d) (hq : s.registers[d]? = some q) :
    (writebackAt s i).map (fun t => t.registers[d]?)
      = some (some { value := computeResult s st, qi := none }) := by
  have hlt : d < s.registers.length := getElem?_some_lt hq
  unfold writebackAt
  rw [hst]
  dsimp only
  rw [if_pos ⟨hb, he, hr⟩, hdest]
  dsimp only
  rw [hq]
  dsimp only [Option.map_some']
  rw [List.getElem?_set_eq_of_lt _ hlt]

/-- Witness for C3: the commit overwrites register 0 and clears the tag
even though the tag named `MULT1`, not the completing `ADD1`. -/
theorem claim_C3_witness :
    (writebackAt c3s 0).map (fun t => t.registers[0]?)
      = some (some { value := computeResult c3s c3st, qi := none }) :=
  claim_C3 c3s 0 c3st 0 { value := 7, qi := some "MULT1" } (by decide) (by decide)
    (by decide) (by decide) (by decide) (by decide)

/-- C5: when the broadcast of `tag` resolves the last outstanding operand
tag of a busy, not-yet-executing station (each operand slot either holds
the broadcast tag or is already resolved, and at least one holds it), the
station leaves the broadcast executing with its full fixed latency
already assigned, and the next execute phase performs the first
decrement — so the countdown begins one cycle after the broadcast, not
two. -/
theorem claim_C5 (tag : String) (v : Value) (o : ReservationStation)
    (op : InstructionType) (l : Nat)
    (hb : o.busy = true) (hx : o.executing = false)
    (hop : o.op = some op) (hl : latencyOf op = some l)
    (hj : o.qj = some tag ∨ o.qj = none) (hk : o.qk = some tag ∨ o.qk = none)
    (hres : o.qj = some tag ∨ o.qk = some tag) :
    (broadcastStation tag v o).executing = true ∧
    (broadcastStation tag v o).remainingCycles = some l ∧
    (executeStation (broadcastStation tag v o)).remainingCycles = some (l - 1) := by
  have hal : assignLatency o.op o.remainingCycles = some l := by
    rw [hop]
    unfold assignLatency
    dsimp only
    rw [hl]
  have hlpos : 0 < l := by
    cases op <;> simp [latencyOf] at hl <;> omega
  obtain ⟨n, hn⟩ : ∃ n, l = n + 1 := ⟨l - 1, by omega⟩
  subst hn
  rcases hj with hqj | hqj <;> rcases hk with hqk | hqk
  · refine ⟨?_, ?_, ?_⟩ <;>
      simp [broadcastStation, executeStation, hb, hx, hqj, hqk, hal]
  · refine ⟨?_, ?_, ?_⟩ <;>
      simp [broadcastStation, executeStation, hb, hx, hqj, hqk, hal]
  · refine ⟨?_, ?_, ?_⟩ <;>
      simp [broadcastStation, executeStation, hb, hx, hqj, hqk, hal]
  · rcases hres with h | h
    · exact absurd h (by simp [hqj])
    · exact absurd h (by simp [hqk])

/-- Witness for C5: broadcasting `LOAD1`'s result wakes the station up
with its full ADD latency of 2, and the next execute phase counts 2 → 1. -/
theorem claim_C5_witness :
    (broadcastStation "LOAD1" 5 c5st).executing = true ∧
    (broadcastStation "LOAD1" 5 c5st).remainingCycles = some 2 ∧
    (executeStation (broadcastStation "LOAD1" 5 c5st)).remainingCycles = some (2 - 1) :=
  claim_C5 "LOAD1" 5 c5st .ADD 2 (by decide) (by decide) (by decide) (by decide)
    (by decide) (by decide) (by decide)

/-- C6: for a busy station with no outstanding operand tags, the execute
phase assigns the fixed latency of its operation exactly when the station
has not yet started (marking it executing, so the assignment happens only
once), the table being Add/Sub 2, Mul 10, Div 40, Load 2; an executing
station with positive remaining latency is decremented by one per cycle
and is left untouched at zero; and a busy executing station whose
remaining latency is zero is written back (its station freed) in that
same cycle's writeback phase. -/
theorem claim_C6 (s : TomasuloCore) (i : Nat) (st : ReservationStation)
    (o : InstructionType) (l n d : Nat) (q : RegisterStatus)
    (hst : s.reservationStations[i]? = some st)
    (hb : st.busy = true) (hj : st.qj = none) (hk : st.qk = none)
    (hop : st.op = some o) (hl : latencyOf o = some l)
    (hdest : st.dest = some d) (hq : s.registers[d]? = some q) :
    (latencyOf .ADD = some 2 ∧ latencyOf .SUB = some 2 ∧
      latencyOf .MUL = some 10 ∧ latencyOf .DIV = some 40 ∧
      latencyOf .LD = some 2) ∧
    (st.executing = false →
      executeStation st = { st with remainingCycles := some l, executing := true }) ∧
    (st.executing = true → st.remainingCycles = some (n + 1) →
      executeStation st = { st with remainingCycles := some n }) ∧
    (st.executing = true → st.remainingCycles = some 0 → executeStation st = st) ∧
    (st.executing = true → st.remainingCycles = some 0 →
      (writebackAt s i).map (fun t => t.reservationStations[i]?.map (·.busy))
        = some (some false)) := by
  have hal : assignLatency st.op st.remainingCycles = some l := by
    rw [hop]
    unfold assignLatency
    dsimp only
    rw [hl]
  refine ⟨⟨rfl, rfl, rfl, rfl, rfl⟩, ?_, ?_, ?_, ?_⟩
  · intro hx
    unfold executeStation
    rw [if_pos ⟨hb, hj, hk⟩, if_pos hx, hal]
  · intro hx hrem
    unfold executeStation
    rw [if_pos ⟨hb, hj, hk⟩, if_neg (by simp [hx]), hrem]
  · intro hx hrem
    unfold executeStation
    rw [if_pos ⟨hb, hj, hk⟩, if_neg (by simp [hx]), hrem]
  · intro hx hrem
    have hlt : i < s.reservationStations.length := getElem?_some_lt hst
    unfold writebackAt
    rw [hst]
    dsimp only
    rw [if_pos ⟨hb, hx, hrem⟩, hdest]
    dsimp only
    rw [hq]
    dsimp only [Option.map_some']
    rw [List.getElem?_set_eq_of_lt _ (by rw [List.length_map]; exact hlt)]
    rfl

/-- Witness for C6 at a concrete MUL station: latency table plus the
start-of-execution behavior (the countdown/writeback conjuncts hold with
false antecedents here). -/
theorem claim_C6_witness :
    (latencyOf .ADD = some 2 ∧ latencyOf .SUB = some 2 ∧
      latencyOf .MUL = some 10 ∧ latencyOf .DIV = some 40 ∧
      latencyOf .LD = some 2) ∧
    (c6st.executing = false →
      executeStation c6st = { c6st with remainingCycles := some 10, executing := true }) ∧
    (c6st.executing = true → c6st.remainingCycles = some (7 + 1) →
      executeStation c6st = { c6st with remainingCycles := some 7 }) ∧
    (c6st.executing = true → c6st.remainingCycles = some 0 → executeStation c6st = c6st) ∧
    (c6st.executing = true → c6st.remainingCycles = some 0 →
      (writebackAt c6s 0).map (fun t => t.reservationStations[0]?.map (·.busy))
        = some (some false)) :=
  claim_C6 c6s 0 c6st .MUL 10 7 0 { value := 0, qi := some "MULT1" } (by decide)
    (by decide) (by decide) (by decide) (by decide) (by decide) (by decide)
    (by decide)

/-- `reset` leaves each pool's station count intact. -/
theorem poolCount_reset (s : TomasuloCore) (t : StationType) :
    poolCount (s.reset) t = poolCount s t := by
  unfold poolCount TomasuloCore.reset
  dsimp only
  rw [List.filter_map, List.length_map]
  rw [show ((fun st : ReservationStation => st.type == t) ∘ clearRS)
    = (fun st : ReservationStation => st.type == t) from rfl]

/-- C8: `reset()` rebuilds the 32-entry register file with value 0 and no
producing tag, clears every station to idle (keeping each station's name
and type, hence each pool's size), zeroes the cycle counter and empties
the queue and the completed set — while the memory contents are exactly
unchanged. -/
theorem claim_C8 (s : TomasuloCore) :
    (s.reset).registers = List.replicate 32 { value := 0, qi := none } ∧
    (s.reset).reservationStations.all stationCleared = true ∧
    (s.reset).reservationStations.map (fun st => (st.name, st.type))
      = s.reservationStations.map (fun st => (st.name, st.type)) ∧
    (s.reset).currentCycle = 0 ∧
    (s.reset).instructionQueue = [] ∧
    (s.reset).executedInstructions = [] ∧
    (s.reset).memory = s.memory ∧
    poolCount (s.reset) .ADD = poolCount s .ADD ∧
    poolCount (s.reset) .MULT = poolCount s .MULT ∧
    poolCount (s.reset) .LOAD = poolCount s .LOAD := by
  refine ⟨rfl, ?_, ?_, rfl, rfl, rfl, rfl, poolCount_reset s .ADD,
    poolCount_reset s .MULT, poolCount_reset s .LOAD⟩
  · show (s.reservationStations.map clearRS).all stationCleared = true
    rw [List.all_map]
    rw [List.all_eq_true]
    intro st _
    simp [Function.comp, stationCleared, clearRS]
  · show (s.reservationStations.map clearRS).map (fun st => (st.name, st.type))
      = s.reservationStations.map (fun st => (st.name, st.type))
    rw [List.map_map]
    rw [show ((fun st : ReservationStation => (st.name, st.type)) ∘ clearRS)
      = (fun st : ReservationStation => (st.name, st.type)) from rfl]

/-- A cleared station satisfies the invariant. -/
theorem stationInv_clearRS (st : ReservationStation) : stationInv (clearRS st) := by
  refine ⟨?_, ?_, ?_⟩ <;> simp [clearRS]

/-- A freshly constructed station satisfies the invariant. -/
theorem stationInv_mkRS (name : String) (t : StationType) :
    stationInv (mkRS name t) := by
  refine ⟨?_, ?_, ?_⟩ <;> simp [mkRS]

/-- `executeStation` never touches operand slots or `busy`. -/
theorem stationInv_executeStation (st : ReservationStation) (h : stationInv st) :
    stationInv (executeStation st) := by
  unfold executeStation
  split
  · split
    · exact h
    · split
      · exact h
      · exact h
  · exact h

/-- Field characterization of a broadcast: `busy` is untouched, and each
operand slot is either untouched or resolved to `(some v, none)` — the
latter only for a busy station. -/
theorem broadcastStation_fields (tag : String) (v : Value)
    (o : ReservationStation) :
    (broadcastStation tag v o).busy = o.busy ∧
    (((broadcastStation tag v o).vj = o.vj ∧ (broadcastStation tag v o).qj = o.qj) ∨
      ((broadcastStation tag v o).vj = some v ∧
        (broadcastStation tag v o).qj = none ∧ o.busy = true)) ∧
    (((broadcastStation tag v o).vk = o.vk ∧ (broadcastStation tag v o).qk = o.qk) ∨
      ((broadcastStation tag v o).vk = some v ∧
        (broadcastStation tag v o).qk = none ∧ o.busy = true)) := by
  unfold broadcastStation
  by_cases hb : o.busy = true
  · rw [if_pos hb]
    dsimp only
    by_cases hqj : o.qj = some tag <;> by_cases hqk : o.qk = some tag
    · rw [if_pos hqj, if_pos hqk]
      split <;> simp [hb]
    · rw [if_pos hqj, if_neg hqk]
      split <;> simp [hb]
    · rw [if_neg hqj, if_pos hqk]
      split <;> simp [hb]
    · rw [if_neg hqj, if_neg hqk]
      split <;> simp [hb]
  · rw [if_neg hb]
    simp

/-- Broadcast preserves the per-station invariant. -/
theorem stationInv_broadcastStation (tag : String) (v : Value)
    (o : ReservationStation) (h : stationInv o) :
    stationInv (broadcastStation tag v o) := by
  obtain ⟨hbusy, hjslot, hkslot⟩ := broadcastStation_fields tag v o
  obtain ⟨h1, h2, h3⟩ := h
  refine ⟨?_, ?_, ?_⟩
  · rcases hjslot with ⟨hv, hq⟩ | ⟨hv, hq, -⟩
    · intro hs
      rw [hq] at hs
      rw [hv]
      exact h1 hs
    · intro hs
      rw [hq] at hs
      simp at hs
  · rcases hkslot with ⟨hv, hq⟩ | ⟨hv, hq, -⟩
    · intro hs
      rw [hq] at hs
      rw [hv]
      exact h2 hs
    · intro hs
      rw [hq] at hs
      simp at hs
  · intro hf
    have hf0 : o.busy = false := hbusy ▸ hf
    have hcl := h3 hf0
    rcases hjslot with ⟨hv, hq⟩ | ⟨-, -, hbt⟩
    · rcases hkslot with ⟨hv2, hq2⟩ | ⟨-, -, hbt⟩
      · exact ⟨hv.trans hcl.1, hv2.trans hcl.2.1, hq.trans hcl.2.2.1,
          hq2.trans hcl.2.2.2⟩
      · rw [hbt] at hf0
        cases hf0
    · rw [hbt] at hf0
      cases hf0

/-- Inversion for `setOperand1`: the first operand slot is either left
alone, set to a pending tag, or set to a value. -/
theorem setOperand1_inv (s : TomasuloCore) (st st2 : ReservationStation)
    (src : Option Nat) (h : setOperand1 s st src = some st2) :
    st2 = st ∨ (∃ q, q.isSome = true ∧ st2 = { st with qj := q }) ∨
      (∃ v, st2 = { st with vj := some v }) := by
  unfold setOperand1 at h
  split at h
  · simp only [Option.some.injEq] at h
    exact Or.inl h.symm
  · split at h
    · cases h
    · rename_i reg hreg
      simp only [Option.some.injEq] at h
      by_cases hqi : reg.qi.isSome = true
      · rw [if_pos hqi] at h
        exact Or.inr (Or.inl ⟨reg.qi, hqi, h.symm⟩)
      · rw [if_neg hqi] at h
        exact Or.inr (Or.inr ⟨reg.value, h.symm⟩)

/-- Inversion for `setOperand2`, targeting the second slot. -/
theorem setOperand2_inv (s : TomasuloCore) (st st2 : ReservationStation)
    (src : Option Nat) (h : setOperand2 s st src = some st2) :
    st2 = st ∨ (∃ q, q.isSome = true ∧ st2 = { st with qk := q }) ∨
      (∃ v, st2 = { st with vk := some v }) := by
  unfold setOperand2 at h
  split at h
  · simp only [Option.some.injEq] at h
    exact Or.inl h.symm
  · split at h
    · cases h
    · rename_i reg hreg
      simp only [Option.some.injEq] at h
      by_cases hqi : reg.qi.isSome = true
      · rw [if_pos hqi] at h
        exact Or.inr (Or.inl ⟨reg.qi, hqi, h.symm⟩)
      · rw [if_neg hqi] at h
        exact Or.inr (Or.inr ⟨reg.value, h.symm⟩)

/-- `issue` preserves the engine-wide invariant. -/
theorem coreInv_issue (s s' : TomasuloCore) (instr : Instruction) (b : Bool)
    (hinv : coreInv s) (h : s.issue instr = some (s', b)) : coreInv s' := by
  unfold TomasuloCore.issue at h
  split at h
  · simp only [Option.some.injEq, Prod.mk.injEq] at h
    exact h.1 ▸ hinv
  · split at h
    · simp only [Option.some.injEq, Prod.mk.injEq] at h
      exact h.1 ▸ hinv
    · rename_i p idx st hfind
      split at h
      · cases h
      · rename_i st2 hop1
        split at h
        · cases h
        · rename_i st3 hop2
          split at h
          · cases h
          · rename_i dreg hdreg
            simp only [Option.some.injEq, Prod.mk.injEq] at h
            obtain ⟨hs', -⟩ := h
            subst hs'
            intro u hu
            rcases List.mem_or_eq_of_mem_set hu with hmem | rfl
            · exact hinv u hmem
            · obtain ⟨hget, hfree, -⟩ :=
                findFreeStation_spec s.reservationStations (poolOf instr.type)
                  idx st hfind
              have hstm : st ∈ s.reservationStations := by
                rw [List.getElem?_eq_some] at hget
                obtain ⟨hl, he⟩ := hget
                exact he ▸ List.getElem_mem hl
              have hclean := (hinv st hstm).2.2 hfree
              obtain ⟨hc1, hc2, hc3, hc4⟩ := hclean
              rcases setOperand1_inv _ _ _ _ hop1 with rfl | ⟨q, hq, rfl⟩ | ⟨v, rfl⟩ <;>
                rcases setOperand2_inv _ _ _ _ hop2 with rfl | ⟨q2, hq2, rfl⟩ | ⟨v2, rfl⟩ <;>
                  refine ⟨?_, ?_, ?_⟩ <;>
                    simp [claimStation, hc1, hc2, hc3, hc4]

/-- `execute` preserves the engine-wide invariant. -/
theorem coreInv_execute (s : TomasuloCore) (hinv : coreInv s) :
    coreInv (s.execute) := by
  intro u hu
  obtain ⟨w, hw, rfl⟩ := List.mem_map.mp hu
  exact stationInv_executeStation w (hinv w hw)

/-- One writeback body preserves the engine-wide invariant. -/
theorem coreInv_writebackAt (s s' : TomasuloCore) (i : Nat)
    (hinv : coreInv s) (h : writebackAt s i = some s') : coreInv s' := by
  unfold writebackAt at h
  split at h
  · simp only [Option.some.injEq] at h
    exact h ▸ hinv
  · rename_i st hst
    split at h
    · split at h
      · cases h
      · split at h
        · cases h
        · simp only [Option.some.injEq] at h
          subst h
          intro u hu
          rcases List.mem_or_eq_of_mem_set hu with hmem | rfl
          · obtain ⟨w, hw, rfl⟩ := List.mem_map.mp hmem
            exact stationInv_broadcastStation _ _ w (hinv w hw)
          · exact stationInv_clearRS st
    · simp only [Option.some.injEq] at h
      exact h ▸ hinv

/-- The whole writeback loop preserves the engine-wide invariant. -/
theorem coreInv_writebackLoop :
    ∀ (l : List Nat) (s s' : TomasuloCore), coreInv s →
      writebackLoop s l = some s' → coreInv s'
  | [], s, s', hinv, h => by
    simp only [writebackLoop, Option.some.injEq] at h
    exact h ▸ hinv
  | i :: rest, s, s', hinv, h => by
    unfold writebackLoop at h
    split at h
    · exact absurd h (by simp)
    · rename_i s1 h1
      exact coreInv_writebackLoop rest s1 s' (coreInv_writebackAt s s1 i hinv h1) h

/-- `step` preserves the engine-wide invariant. -/
theorem coreInv_step (s s' : TomasuloCore) (hinv : coreInv s)
    (h : s.step = some s') : coreInv s' := by
  unfold TomasuloCore.step at h
  cases hip : issuePhase { s with currentCycle := s.currentCycle + 1 } with
  | none =>
    rw [hip] at h
    cases h
  | some s2 =>
    rw [hip] at h
    have hinv2 : coreInv s2 := by
      unfold issuePhase at hip
      split at hip
      · simp only [Option.some.injEq] at hip
        exact hip ▸ hinv
      · rename_i instr rest hq
        split at hip
        · cases hip
        · rename_i p s1 ok hiss
          simp only [Option.some.injEq] at hip
          have hinv1 : coreInv s1 := coreInv_issue
            { s with currentCycle := s.currentCycle + 1 } s1 instr ok hinv hiss
          subst hip
          split
          · exact hinv1
          · exact hinv1
    exact coreInv_writebackLoop _ _ s' (coreInv_execute s2 hinv2) h

/-- A freshly constructed core satisfies the invariant. -/
theorem coreInv_mkCore (a m l : Nat) : coreInv (TomasuloCore.mkCore a m l) := by
  intro u hu
  show stationInv u
  have : ∀ (t : StationType) (base : String) (n : Nat), u ∈ mkPool t base n →
      stationInv u := by
    intro t base n hm
    obtain ⟨i, -, rfl⟩ := List.mem_map.mp hm
    exact stationInv_mkRS _ _
  rcases List.mem_append.mp hu with hm | hm
  · rcases List.mem_append.mp hm with hm2 | hm2
    · exact this _ _ _ hm2
    · exact this _ _ _ hm2
  · exact this _ _ _ hm

/-- Every reachable state satisfies the invariant. -/
theorem coreInv_reachable (s : TomasuloCore) (h : Reachable s) : coreInv s := by
  induction h with
  | mk_core a m l => exact coreInv_mkCore a m l
  | init_mem t entries _ ih => exact ih
  | load t l _ ih => exact ih
  | reset t _ ih =>
    intro u hu
    obtain ⟨w, hw, rfl⟩ := List.mem_map.mp hu
    exact stationInv_clearRS w
  | step t t' _ hs ih => exact coreInv_step t t' ih hs

/-- C9: in every state reachable through the public interface —
construction, `initializeMemory`, `loadInstructions`, `reset()` and any
number of `step()` calls — no reservation station ever holds both an
operand value and an operand tag in the same slot. -/
theorem claim_C9 (s : TomasuloCore) (h : Reachable s) :
    stationsExclusive s = true := by
  have hinv := coreInv_reachable s h
  unfold stationsExclusive
  rw [List.all_eq_true]
  intro st hm
  obtain ⟨h1, h2, -⟩ := hinv st hm
  cases hqj : st.qj with
  | none =>
    cases hqk : st.qk with
    | none => simp
    | some a =>
      rw [h2 (by rw [hqk]; rfl)]
      simp
  | some a =>
    rw [h1 (by rw [hqj]; rfl)]
    cases hqk : st.qk with
    | none => simp
    | some a2 =>
      rw [h2 (by rw [hqk]; rfl)]
      simp

/-- Witness for C9 at the freshly constructed default core. -/
theorem claim_C9_witness : stationsExclusive (TomasuloCore.mkCore 3 2 2) = true :=
  claim_C9 (TomasuloCore.mkCore 3 2 2) (Reachable.mk_core 3 2 2)

/-- An in-range first operand read cannot fault. -/
theorem setOperand1_isSome (s : TomasuloCore) (st : ReservationStation)
    (src : Option Nat) (hlen : s.registers.length = 32)
    (hb : src.getD 0 < 32) : (setOperand1 s st src).isSome = true := by
  unfold setOperand1
  cases src with
  | none => rfl
  | some r =>
    have hr : r < s.registers.length := by
      rw [hlen]
      simpa using hb
    dsimp only
    rw [List.getElem?_eq_getElem hr]
    dsimp only
    split <;> rfl

/-- An in-range second operand read cannot fault. -/
theorem setOperand2_isSome (s : TomasuloCore) (st : ReservationStation)
    (src : Option Nat) (hlen : s.registers.length = 32)
    (hb : src.getD 0 < 32) : (setOperand2 s st src).isSome = true := by
  unfold setOperand2
  cases src with
  | none => rfl
  | some r =>
    have hr : r < s.registers.length := by
      rw [hlen]
      simpa using hb
    dsimp only
    rw [List.getElem?_eq_getElem hr]
    dsimp only
    split <;> rfl

/-- C10: `issue` indexes the 32-entry register file directly with the
parsed register numbers and performs no bounds check.  With every named
register in R0..R31 the issue attempt never faults (it returns a result,
accepted or rejected); but as soon as the instruction proceeds to the
operand/destination reads (a free station exists and the identity is
fresh), a register index of 32 or more reaches the out-of-bounds access
and the call faults instead of returning a rejected issue. -/
theorem claim_C10 (s : TomasuloCore) (instr : Instruction)
    (hlen : s.registers.length = 32) :
    ((instr.dest < 32 ∧ instr.src1.getD 0 < 32 ∧ instr.src2.getD 0 < 32) →
      (s.issue instr).isSome = true) ∧
    ((findFreeStation s.reservationStations (poolOf instr.type)).isSome = true →
      instr.id ∉ s.executedInstructions →
      (32 ≤ instr.dest ∨ 32 ≤ instr.src1.getD 0 ∨ 32 ≤ instr.src2.getD 0) →
      s.issue instr = none) := by
  constructor
  · intro ⟨hd, h1, h2⟩
    unfold TomasuloCore.issue
    split
    · rfl
    · cases hf : findFreeStation s.reservationStations (poolOf instr.type) with
      | none => rfl
      | some p =>
        obtain ⟨idx, st⟩ := p
        dsimp only
        obtain ⟨st2, hst2⟩ := Option.isSome_iff_exists.mp
          (setOperand1_isSome s (claimStation st instr) instr.src1 hlen h1)
        rw [hst2]
        dsimp only
        obtain ⟨st3, hst3⟩ := Option.isSome_iff_exists.mp
          (setOperand2_isSome s st2 instr.src2 hlen h2)
        rw [hst3]
        dsimp only
        have hdr : instr.dest < s.registers.length := by omega
        rw [List.getElem?_eq_getElem hdr]
        rfl
  · intro hfree hnx hoob
    obtain ⟨⟨idx, st⟩, hf⟩ := Option.isSome_iff_exists.mp hfree
    unfold TomasuloCore.issue
    rw [if_neg hnx, hf]
    dsimp only
    by_cases h1 : 32 ≤ instr.src1.getD 0
    · cases hs1 : instr.src1 with
      | none =>
        rw [hs1] at h1
        simp at h1
      | some r =>
        rw [hs1] at h1
        simp only [Option.getD_some] at h1
        have hnone : s.registers[r]? = none := List.getElem?_eq_none (by omega)
        unfold setOperand1
        dsimp only
        rw [hnone]
    · by_cases h2 : 32 ≤ instr.src2.getD 0
      · obtain ⟨st2, hst2⟩ := Option.isSome_iff_exists.mp
          (setOperand1_isSome s (claimStation st instr) instr.src1 hlen (by omega))
        rw [hst2]
        dsimp only
        cases hs2 : instr.src2 with
        | none =>
          rw [hs2] at h2
          simp at h2
        | some r =>
          rw [hs2] at h2
          simp only [Option.getD_some] at h2
          have hnone : s.registers[r]? = none := List.getElem?_eq_none (by omega)
          unfold setOperand2
          dsimp only
          rw [hnone]
      · have hd : 32 ≤ instr.dest := by
          rcases hoob with h | h | h
          · exact h
          · exact absurd h h1
          · exact absurd h h2
        obtain ⟨st2, hst2⟩ := Option.isSome_iff_exists.mp
          (setOperand1_isSome s (claimStation st instr) instr.src1 hlen (by omega))
        rw [hst2]
        dsimp only
        obtain ⟨st3, hst3⟩ := Option.isSome_iff_exists.mp
          (setOperand2_isSome s st2 instr.src2 hlen (by omega))
        rw [hst3]
        dsimp only
        have hnone : s.registers[instr.dest]? = none :=
          List.getElem?_eq_none (by omega)
        rw [hnone]

/-- Witness for C10: the in-range instruction issues without fault, the
out-of-range destination faults. -/
theorem claim_C10_witness :
    (c10s.issue c10good).isSome = true ∧ c10s.issue c10bad = none :=
  ⟨(claim_C10 c10s c10good (by decide)).1 (by decide),
   (claim_C10 c10s c10bad (by decide)).2 (by decide) (by decide) (by decide)⟩
